import Mathlib

/-!
Verification of the struct-overlay layer (struct.go) of a zero-copy message
format.  The Lean definitions below embed the code of struct.go over a
functional model of its external collaborators (segment on byte buffer,
pointer encoding, allocator), which are modelled from the specification
because only struct.go is part of the analysed unit.

Machine integers are modelled as Nat; byte stores truncate with % 256 and
word reads assemble little-endian values, so overflow behaviour is explicit.
A Go panic (contract violation or nil dereference) is modelled as the
distinguished outcome constructor fault, disjoint from ordinary returned
errors (constructor err).
-/

namespace Capnp

/-- Modelled from the spec: the error values of the library that the copied
code mentions (errOutOfBounds is the one raised by struct.go itself; the
others come from the segment, the pointer decoder, the default-template
decoder and the copy-depth check, all external collaborators).  The
errNilSegment value stands for the Go runtime nil-pointer panic raised by
calling a segment method through a nil segment reference. -/
inductive CapnpError where
  | errOutOfBounds
  | errObjectSize
  | errCopyDepth
  | errBadPointer
  | errMalformedDefault
  | errAllocExhausted
  | errNilSegment
deriving DecidableEq

/-- Outcome of an operation that may either return normally, return an
ordinary error value, or abort the process (Go panic / nil dereference).
The fault constructor is deliberately distinct from err: the spec requires
contract violations to abort distinctly from data-dependent failures. -/
inductive Outcome (α : Type) where
  | ok (a : α)
  | err (e : CapnpError)
  | fault (e : CapnpError)
deriving DecidableEq

/-- Modelled from the spec: the word size of the format, 8 bytes. -/
def wordSize : Nat := 8

/-- ObjectSize of struct.go: a data-section byte count and a
pointer-section slot count. -/
structure ObjectSize where
  dataSize : Nat
  pointerCount : Nat
deriving DecidableEq

/-- Modelled from the spec: sizes are valid when DataSize and PointerCount
are within representable bounds (a struct pointer encodes each section
size as a 16-bit word count). -/
def ObjectSize.isValid (sz : ObjectSize) : Bool :=
  sz.dataSize ≤ 0xffff * wordSize && sz.pointerCount ≤ 0xffff

/-- Modelled from the spec: round a byte count up to the nearest 8-byte
word. -/
def padToWord (n : Nat) : Nat :=
  ((n + 7) / 8) * 8

/-- Modelled from the spec: total byte count of a struct allocation,
DataSize plus PointerCount times the word size. -/
def ObjectSize.totalSize (sz : ObjectSize) : Nat :=
  sz.dataSize + wordSize * sz.pointerCount

/-- ObjectSize.isZero of the library: both components are zero. -/
def ObjectSize.isZero (sz : ObjectSize) : Bool :=
  sz.dataSize == 0 && sz.pointerCount == 0

/-- Modelled from the spec: a decoded pointer value, the tagged union over
null, struct (which resolves to a data section and a pointer section) and
the remaining non-struct kinds, collapsed into one capability-like
constructor since struct.go only ever asks whether a pointer is a struct. -/
inductive Ptr where
  | null
  | strukt (data : List Nat) (ptrs : List Ptr)
  | cap (n : Nat)

/-- Modelled from the spec: the content of one pointer word of a segment.
A raw word (zero-initialised memory or an explicitly written raw word), a
successfully decodable pointer value, or an undecodable (corrupt) word; a
corrupt word makes the pointer decoder fail, which the spec lists among
the data failures that copy paths propagate. -/
inductive PtrCell where
  | raw (w : Nat)
  | val (p : Ptr)
  | corrupt

/-- Modelled from the spec: a segment is a growable addressed byte buffer
holding the data sections, together with the pointer words, kept here as
an association from byte address to cell (absent address = zero word). -/
structure Segment where
  data : List Nat
  pcells : List (Nat × PtrCell)

/-- Pointer word of a segment at a byte address; unwritten words read as
the raw zero word. -/
def Segment.pcell (s : Segment) (addr : Nat) : PtrCell :=
  match s.pcells.lookup addr with
  | some c => c
  | none => PtrCell.raw 0

/-- Store a pointer cell at a byte address. -/
def Segment.setPcell (s : Segment) (addr : Nat) (c : PtrCell) : Segment :=
  { s with pcells := (addr, c) :: s.pcells }

/-- Modelled from the spec: raw little-endian byte read of the segment. -/
def Segment.readUint8 (s : Segment) (addr : Nat) : Nat :=
  s.data.getD addr 0

/-- Modelled from the spec: raw byte write of the segment (bytes truncate
to 8 bits). -/
def Segment.writeUint8 (s : Segment) (addr : Nat) (v : Nat) : Segment :=
  { s with data := s.data.set addr (v % 256) }

/-- Modelled from the spec: little-endian read of n consecutive bytes,
least significant byte first. -/
def Segment.readLE (s : Segment) (addr : Nat) : Nat → Nat
  | 0 => 0
  | k + 1 => s.readUint8 addr + 256 * s.readLE (addr + 1) k

/-- Little-endian store of n bytes of v into a byte list starting at addr,
least significant byte first. -/
def writeLEBytes : List Nat → Nat → Nat → Nat → List Nat
  | data, _, 0, _ => data
  | data, addr, k + 1, v => writeLEBytes (data.set addr (v % 256)) (addr + 1) k (v / 256)

/-- Modelled from the spec: little-endian write of n consecutive bytes. -/
def Segment.writeLE (s : Segment) (addr n v : Nat) : Segment :=
  { s with data := writeLEBytes s.data addr n v }

/-- Modelled from the spec: Segment.slice, the byte view of length sz
starting at a byte address (truncated at the end of the buffer). -/
def Segment.slice (s : Segment) (addr sz : Nat) : List Nat :=
  (s.data.drop addr).take sz

/-- Overwrite bytes of a list starting at addr with the given list. -/
def setBytes : List Nat → Nat → List Nat → List Nat
  | data, _, [] => data
  | data, addr, b :: bs => setBytes (data.set addr b) (addr + 1) bs

/-- Modelled from the spec: bulk byte write used for the data-section
copy. -/
def Segment.writeBytes (s : Segment) (addr : Nat) (bs : List Nat) : Segment :=
  { s with data := setBytes s.data addr bs }

/-- Modelled from the spec: Segment.readPtr decodes the pointer word at a
byte address; decoding a corrupt word is a data failure. -/
def Segment.readPtr (s : Segment) (addr : Nat) : Except CapnpError Ptr :=
  match s.pcell addr with
  | PtrCell.raw w => if w == 0 then Except.ok Ptr.null else Except.error CapnpError.errBadPointer
  | PtrCell.val p => Except.ok p
  | PtrCell.corrupt => Except.error CapnpError.errBadPointer

/-- Modelled from the spec: the configured recursion-depth limit of the
copy context (the spec only states that such a limit exists and is checked
before each recursive descent; the concrete value is irrelevant to the
claims beyond being fixed and positive). -/
def maxDepth : Nat := 32

mutual

/-- Modelled from the spec: the deep copy a pointer undergoes when written
into another message.  The depth counter of the copy context is checked
before each recursive descent into a struct and incremented for the sub
pointers, failing with the nesting-depth error instead of recursing
unboundedly. -/
def copyPtr (cc : Nat) : Ptr → Except CapnpError Ptr
  | Ptr.null => Except.ok Ptr.null
  | Ptr.cap n => Except.ok (Ptr.cap n)
  | Ptr.strukt d ps =>
    if maxDepth ≤ cc then Except.error CapnpError.errCopyDepth
    else
      match copyPtrList (cc + 1) ps with
      | Except.error e => Except.error e
      | Except.ok ps2 => Except.ok (Ptr.strukt d ps2)

/-- Deep copy of a list of sub pointers at one depth level. -/
def copyPtrList (cc : Nat) : List Ptr → Except CapnpError (List Ptr)
  | [] => Except.ok []
  | p :: rest =>
    match copyPtr cc p with
    | Except.error e => Except.error e
    | Except.ok p2 =>
      match copyPtrList cc rest with
      | Except.error e => Except.error e
      | Except.ok rest2 => Except.ok (p2 :: rest2)

end

/-- Modelled from the spec: Segment.writePtr encodes a deep copy of the
given pointer value into the pointer word at the address, threading the
copy-context depth. -/
def Segment.writePtr (cc : Nat) (s : Segment) (addr : Nat) (m : Ptr) : Except CapnpError Segment :=
  match copyPtr cc m with
  | Except.error e => Except.error e
  | Except.ok m2 => Except.ok (s.setPcell addr (PtrCell.val m2))

/-- Modelled from the spec: Segment.writeRawPointer stores a raw encoded
word without interpretation. -/
def Segment.writeRawPointer (s : Segment) (addr w : Nat) : Segment :=
  s.setPcell addr (PtrCell.raw w)

/-- Struct of struct.go: an ephemeral view over segment bytes, a segment
reference (none models the nil Go pointer of an unbacked view), a base
address, an ObjectSize and the flags word. -/
structure Struct where
  seg : Option Segment
  off : Nat
  size : ObjectSize
  flags : Nat

/-- The zero Go value of Struct: the unbacked invalid struct. -/
def Struct.empty : Struct :=
  { seg := none, off := 0, size := { dataSize := 0, pointerCount := 0 }, flags := 0 }

/-- Modelled from the spec: the capacity bound after which the allocator
is exhausted, taken as the 32-bit byte address space of a segment (the
spec fixes no concrete capacity, only that allocation exhaustion is a
returned error). -/
def maxSegmentBytes : Nat := 2 ^ 32

/-- Modelled from the spec: the allocator either appends the requested
byte count of zeroed storage to the segment and returns the base address
of the new space, or fails with the allocation-exhaustion error when the
segment cannot grow by that much (allocate returns segment and address or
AllocError). -/
def alloc (s : Segment) (sz : Nat) : Except CapnpError (Segment × Nat) :=
  if maxSegmentBytes < s.data.length + sz then Except.error CapnpError.errAllocExhausted
  else Except.ok ({ s with data := s.data ++ List.replicate sz 0 }, s.data.length)

/-- NewStruct of struct.go: validate the size, round the data size up to a
word, allocate totalSize bytes, propagating an allocation error, and
return the fresh view (the updated segment is returned alongside since
the embedding is functional). -/
def NewStruct (s : Segment) (sz : ObjectSize) : Except CapnpError (Struct × Segment) :=
  if sz.isValid = false then Except.error CapnpError.errObjectSize
  else
    let sz2 : ObjectSize := { sz with dataSize := padToWord sz.dataSize }
    match alloc s sz2.totalSize with
    | Except.error e => Except.error e
    | Except.ok res => Except.ok ({ seg := some res.1, off := res.2, size := sz2, flags := 0 }, res.1)

/-- Modelled from the spec: IsValid of the pointer layer; the null/absent
pointer is the invalid one. -/
def IsValid : Ptr → Bool
  | Ptr.null => false
  | _ => true

/-- Discriminator used to phrase the fallback condition of
ToStructDefault: a pointer whose underlying value is a struct. -/
def Ptr.isStruct : Ptr → Bool
  | Ptr.strukt _ _ => true
  | _ => false

/-- Pointer cells of a standalone segment holding the given sub pointers
at consecutive word addresses starting at base. -/
def cellsFrom (base : Nat) : List Ptr → List (Nat × PtrCell)
  | [] => []
  | p :: rest => (base, PtrCell.val p) :: cellsFrom (base + wordSize) rest

/-- Modelled from the spec: resolving a struct-typed pointer value to its
(segment, address, data size, pointer count) view. -/
def structFromPtr (d : List Nat) (ps : List Ptr) : Struct :=
  { seg := some { data := d, pcells := cellsFrom d.length ps }
    off := 0
    size := { dataSize := d.length, pointerCount := ps.length }
    flags := 0 }

/-- ToStruct of struct.go: narrow a pointer to a struct, yielding the
invalid Struct when the pointer is invalid or not struct-typed. -/
def ToStruct (p : Ptr) : Struct :=
  if IsValid p = false then Struct.empty
  else
    match p with
    | Ptr.strukt d ps => structFromPtr d ps
    | _ => Struct.empty

/-- Modelled from the spec: decodeDefaultTemplate / unmarshalDefault
decodes a pre-encoded byte template into a pointer value and fails with
the malformed-default error otherwise.  The template format modelled here
is minimal: a leading tag byte 1, a length byte d and then exactly d data
bytes decode to a struct pointer with those data bytes and no sub
pointers; every other shape is malformed. -/
def unmarshalDefault (bs : List Nat) : Except CapnpError Ptr :=
  match bs with
  | 1 :: d :: rest =>
    if rest.length == d then Except.ok (Ptr.strukt rest [])
    else Except.error CapnpError.errMalformedDefault
  | _ => Except.error CapnpError.errMalformedDefault

/-- ToStructDefault of struct.go: narrow a pointer to a struct, decoding
the default template when the pointer is invalid or not struct-typed; the
absent template (the nil Go slice, modelled as none) yields the invalid
Struct with no error. -/
def ToStructDefault (p : Ptr) (def2 : Option (List Nat)) : Except CapnpError Struct :=
  let fallback : Except CapnpError Struct :=
    match def2 with
    | none => Except.ok Struct.empty
    | some bs =>
      match unmarshalDefault bs with
      | Except.error e => Except.error e
      | Except.ok defp => Except.ok (ToStruct defp)
  if IsValid p = false then fallback
  else
    match p with
    | Ptr.strukt d ps => Except.ok (structFromPtr d ps)
    | _ => fallback

/-- Struct.pointerAddress of struct.go: address of pointer slot i, the
word i places after the end of the data section. -/
def Struct.pointerAddress (p : Struct) (i : Nat) : Nat :=
  p.off + p.size.dataSize + wordSize * i

/-- Struct.Pointer of struct.go: read pointer slot i; the nil pointer with
no error when the view is unbacked or the index is beyond PointerCount,
otherwise the decode result of the segment. -/
def Struct.Pointer (p : Struct) (i : Nat) : Except CapnpError Ptr :=
  match p.seg with
  | none => Except.ok Ptr.null
  | some s =>
    if p.size.pointerCount ≤ i then Except.ok Ptr.null
    else s.readPtr (p.pointerAddress i)

/-- Struct.SetPointer of struct.go: write pointer slot i; a panic
(modelled as fault) when the view is unbacked or the index is beyond
PointerCount, otherwise the writePtr result with a fresh copy context. -/
def Struct.SetPointer (p : Struct) (i : Nat) (src : Ptr) : Outcome Struct :=
  match p.seg with
  | none => Outcome.fault CapnpError.errOutOfBounds
  | some s =>
    if p.size.pointerCount ≤ i then Outcome.fault CapnpError.errOutOfBounds
    else
      match s.writePtr 0 (p.pointerAddress i) src with
      | Except.error e => Outcome.err e
      | Except.ok s2 => Outcome.ok { p with seg := some s2 }

/-- BitOffset.offset of the library: the byte that holds the bit. -/
def bitOffset (n : Nat) : Nat := n / 8

/-- BitOffset.mask of the library: the mask selecting the bit inside its
byte. -/
def bitMask (n : Nat) : Nat := 1 <<< (n % 8)

/-- Struct.bitInData of struct.go: the view is backed and the bit index is
inside the data section. -/
def Struct.bitInData (p : Struct) (bit : Nat) : Bool :=
  p.seg.isSome && bit < p.size.dataSize * 8

/-- Struct.Bit of struct.go: read a bit of the data section; false when
the view is unbacked or the bit is out of range. -/
def Struct.Bit (p : Struct) (n : Nat) : Bool :=
  match p.seg with
  | none => false
  | some s =>
    if n < p.size.dataSize * 8 then ((s.readUint8 (p.off + bitOffset n)) &&& bitMask n) != 0
    else false

/-- Struct.SetBit of struct.go: set a bit of the data section by a
read-mask-write of its byte; a panic (fault) when the view is unbacked or
the bit is out of range. -/
def Struct.SetBit (p : Struct) (n : Nat) (v : Bool) : Outcome Struct :=
  match p.seg with
  | none => Outcome.fault CapnpError.errOutOfBounds
  | some s =>
    if p.size.dataSize * 8 ≤ n then Outcome.fault CapnpError.errOutOfBounds
    else
      let addr := p.off + bitOffset n
      let b := s.readUint8 addr
      let b2 := if v then b ||| bitMask n else b &&& (255 ^^^ bitMask n)
      Outcome.ok { p with seg := some (s.writeUint8 addr b2) }

/-- Struct.dataAddress of struct.go: resolve a data-section offset of a
given width to an absolute address, none when the view is unbacked or the
access does not fit in the data section. -/
def Struct.dataAddress (p : Struct) (off sz : Nat) : Option Nat :=
  match p.seg with
  | none => none
  | some _ => if p.size.dataSize < off + sz then none else some (p.off + off)

/-- Struct.Uint8 of struct.go: total read, zero when out of range or
unbacked. -/
def Struct.Uint8 (p : Struct) (off : Nat) : Nat :=
  match p.seg, p.dataAddress off 1 with
  | some s, some addr => s.readLE addr 1
  | _, _ => 0

/-- Struct.Uint16 of struct.go: total read, zero when out of range or
unbacked. -/
def Struct.Uint16 (p : Struct) (off : Nat) : Nat :=
  match p.seg, p.dataAddress off 2 with
  | some s, some addr => s.readLE addr 2
  | _, _ => 0

/-- Struct.Uint32 of struct.go: total read, zero when out of range or
unbacked. -/
def Struct.Uint32 (p : Struct) (off : Nat) : Nat :=
  match p.seg, p.dataAddress off 4 with
  | some s, some addr => s.readLE addr 4
  | _, _ => 0

/-- Struct.Uint64 of struct.go: total read, zero when out of range or
unbacked. -/
def Struct.Uint64 (p : Struct) (off : Nat) : Nat :=
  match p.seg, p.dataAddress off 8 with
  | some s, some addr => s.readLE addr 8
  | _, _ => 0

/-- Struct.SetUint8 of struct.go: write, panicking (fault) when out of
range or unbacked. -/
def Struct.SetUint8 (p : Struct) (off v : Nat) : Outcome Struct :=
  match p.seg, p.dataAddress off 1 with
  | some s, some addr => Outcome.ok { p with seg := some (s.writeLE addr 1 v) }
  | _, _ => Outcome.fault CapnpError.errOutOfBounds

/-- Struct.SetUint16 of struct.go: write, panicking (fault) when out of
range or unbacked. -/
def Struct.SetUint16 (p : Struct) (off v : Nat) : Outcome Struct :=
  match p.seg, p.dataAddress off 2 with
  | some s, some addr => Outcome.ok { p with seg := some (s.writeLE addr 2 v) }
  | _, _ => Outcome.fault CapnpError.errOutOfBounds

/-- Struct.SetUint32 of struct.go: write, panicking (fault) when out of
range or unbacked. -/
def Struct.SetUint32 (p : Struct) (off v : Nat) : Outcome Struct :=
  match p.seg, p.dataAddress off 4 with
  | some s, some addr => Outcome.ok { p with seg := some (s.writeLE addr 4 v) }
  | _, _ => Outcome.fault CapnpError.errOutOfBounds

/-- Struct.SetUint64 of struct.go: write, panicking (fault) when out of
range or unbacked. -/
def Struct.SetUint64 (p : Struct) (off v : Nat) : Outcome Struct :=
  match p.seg, p.dataAddress off 8 with
  | some s, some addr => Outcome.ok { p with seg := some (s.writeLE addr 8 v) }
  | _, _ => Outcome.fault CapnpError.errOutOfBounds

/-- Pointer-section loop of copyStruct: for the n slots starting at index
j, decode the source slot and write a deep copy into the destination slot,
with the copy-context depth incremented for the descent; the first failure
aborts. -/
def copyPtrSection (cc : Nat) (sseg : Segment) (srcSect dstSect : Nat) :
    Nat → Nat → Segment → Except CapnpError Segment
  | 0, _, dseg => Except.ok dseg
  | k + 1, j, dseg =>
    match sseg.readPtr (srcSect + wordSize * j) with
    | Except.error e => Except.error e
    | Except.ok m =>
      match dseg.writePtr (cc + 1) (dstSect + wordSize * j) m with
      | Except.error e => Except.error e
      | Except.ok dseg2 => copyPtrSection cc sseg srcSect dstSect k (j + 1) dseg2

/-- Zeroing loop of copyStruct: write a zero raw pointer word into the n
destination slots starting at index j. -/
def zeroPtrSlots (dstSect : Nat) : Nat → Nat → Segment → Segment
  | 0, _, dseg => dseg
  | k + 1, j, dseg => zeroPtrSlots dstSect k (j + 1) (dseg.writeRawPointer (dstSect + wordSize * j) 0)

/-- Data-section bytes written into the destination by copyStruct: the
first min(srcLen, dstLen) bytes of the source view followed by zeroes for
the remainder of the destination view (the Go locals srcData, dstData and
copyCount of copyStruct). -/
def dataCopyBytes (sseg dseg : Segment) (src dst : Struct) : List Nat :=
  let srcData := sseg.slice src.off src.size.dataSize
  let dstData := dseg.slice dst.off dst.size.dataSize
  let copyCount := min srcData.length dstData.length
  srcData.take copyCount ++ List.replicate (dstData.length - copyCount) 0

/-- copyStruct of struct.go: the version-tolerant deep copy.  A no-op when
the destination is unbacked; otherwise the data section of the source is
copied byte for byte up to the shorter of the two data sizes and the rest
of the destination data section is zero-filled, then the common prefix of
the pointer sections is deep-copied slot by slot and the remaining
destination slots are zeroed.  The source segment is dereferenced
unconditionally; the Go code calls src.seg.slice on the nil segment
pointer of an unbacked source, a nil dereference panic, modelled by the
fault outcome. -/
def copyStruct (cc : Nat) (dst src : Struct) : Outcome Struct :=
  match dst.seg with
  | none => Outcome.ok dst
  | some dseg =>
    match src.seg with
    | none => Outcome.fault CapnpError.errNilSegment
    | some sseg =>
      let dseg2 := dseg.writeBytes dst.off (dataCopyBytes sseg dseg src dst)
      let srcPtrSect := src.off + src.size.dataSize
      let dstPtrSect := dst.off + dst.size.dataSize
      let n := min src.size.pointerCount dst.size.pointerCount
      match copyPtrSection cc sseg srcPtrSect dstPtrSect n 0 dseg2 with
      | Except.error e => Outcome.err e
      | Except.ok dseg3 =>
        let dseg4 := zeroPtrSlots dstPtrSect (dst.size.pointerCount - src.size.pointerCount)
          src.size.pointerCount dseg3
        Outcome.ok { dst with seg := some dseg4 }

/-- Chain of nested struct pointers of the given extra depth: chainPtr n
has n + 1 nested struct levels, the innermost empty. -/
def chainPtr : Nat → Ptr
  | 0 => Ptr.strukt [] []
  | n + 1 => Ptr.strukt [] [chainPtr n]

/-- Concrete backed struct over an 8-byte zeroed segment, used by the
witnesses. -/
def segEx : Segment :=
  { data := [0, 0, 0, 0, 0, 0, 0, 0], pcells := [] }

/-- Concrete backed struct view of segEx with an 8-byte data section and
no pointer section. -/
def structEx : Struct :=
  { seg := some segEx, off := 0, size := { dataSize := 8, pointerCount := 0 }, flags := 0 }

/-- Concrete segment whose pointer word at address 0 is undecodable. -/
def corruptSeg : Segment :=
  { data := [], pcells := [(0, PtrCell.corrupt)] }

/-- Concrete backed struct with one pointer slot over corruptSeg. -/
def corruptStruct : Struct :=
  { seg := some corruptSeg, off := 0, size := { dataSize := 0, pointerCount := 1 }, flags := 0 }

/-- Concrete allocation result segment for the witness: segEx grown by one
padded data word and one pointer word. -/
def seg2Ex : Segment :=
  { data := segEx.data ++ List.replicate 16 0, pcells := [] }

/-- Concrete struct view returned by allocating a size of 3 data bytes and
one pointer slot at the end of segEx. -/
def stEx : Struct :=
  { seg := some seg2Ex, off := 8, size := { dataSize := 8, pointerCount := 1 }, flags := 0 }

/-- Concrete source segment for the copy witness: 8 data bytes and one
pointer word holding a capability pointer. -/
def ssegC1 : Segment :=
  { data := [1, 2, 3, 4, 5, 6, 7, 8], pcells := [(8, PtrCell.val (Ptr.cap 7))] }

/-- Concrete source struct for the copy witness: 8 data bytes, 1 pointer
slot. -/
def srcC1 : Struct :=
  { seg := some ssegC1, off := 0, size := { dataSize := 8, pointerCount := 1 }, flags := 0 }

/-- Concrete destination segment for the copy witness: 16 stale data bytes
and stale pointer words. -/
def dsegC1 : Segment :=
  { data := List.replicate 16 9, pcells := [(16, PtrCell.corrupt), (24, PtrCell.corrupt)] }

/-- Concrete destination struct for the copy witness: 16 data bytes, 2
pointer slots (a newer, larger schema than the source). -/
def dstC1 : Struct :=
  { seg := some dsegC1, off := 0, size := { dataSize := 16, pointerCount := 2 }, flags := 0 }

/-- Concrete source segment for the recursion-depth witness: slot 0 holds
a chain of 32 nested structs. -/
def ssegC7 : Segment :=
  { data := [], pcells := [(0, PtrCell.val (chainPtr 31))] }

/-- Concrete source struct for the recursion-depth witness. -/
def srcC7 : Struct :=
  { seg := some ssegC7, off := 0, size := { dataSize := 0, pointerCount := 1 }, flags := 0 }

/-- Concrete empty destination segment for the recursion-depth witness. -/
def dsegC7 : Segment :=
  { data := [], pcells := [] }

/-- Concrete destination struct for the recursion-depth witness. -/
def dstC7 : Struct :=
  { seg := some dsegC7, off := 0, size := { dataSize := 0, pointerCount := 1 }, flags := 0 }

/-! Helper lemmas about the little-endian byte store. -/

theorem writeLEBytes_length (n : Nat) : ∀ (data : List Nat) (addr v : Nat),
    (writeLEBytes data addr n v).length = data.length := by
  induction n with
  | zero => intro data addr v; rfl
  | succ k ih =>
    intro data addr v
    simp only [writeLEBytes]
    rw [ih, List.length_set]

theorem writeLEBytes_getElem_lt (n : Nat) : ∀ (data : List Nat) (addr v i : Nat), i < addr →
    (writeLEBytes data addr n v)[i]? = data[i]? := by
  induction n with
  | zero => intro data addr v i h; rfl
  | succ k ih =>
    intro data addr v i h
    simp only [writeLEBytes]
    rw [ih _ _ _ _ (by omega), List.getElem?_set_ne (by omega)]

theorem readLE_writeLEBytes (n : Nat) : ∀ (pc : List (Nat × PtrCell)) (data : List Nat)
    (addr v : Nat), addr + n ≤ data.length →
    Segment.readLE { data := writeLEBytes data addr n v, pcells := pc } addr n = v % 256 ^ n := by
  induction n with
  | zero =>
    intro pc data addr v h
    simp [Segment.readLE, Nat.mod_one]
  | succ k ih =>
    intro pc data addr v h
    simp only [writeLEBytes, Segment.readLE, Segment.readUint8]
    rw [List.getD_eq_getElem?_getD, writeLEBytes_getElem_lt k _ _ _ _ (by omega),
      List.getElem?_set_self (by omega)]
    have hlen : (addr + 1) + k ≤ (data.set addr (v % 256)).length := by
      rw [List.length_set]; omega
    rw [ih pc (data.set addr (v % 256)) (addr + 1) (v / 256) hlen]
    simp only [Option.getD_some]
    rw [pow_succ', Nat.mod_mul]

theorem Segment.readLE_writeLE (s : Segment) (addr n v : Nat) (h : addr + n ≤ s.data.length) :
    (s.writeLE addr n v).readLE addr n = v % 256 ^ n :=
  readLE_writeLEBytes n s.pcells s.data addr v h

/-- C3: every scalar read of the data section is total: when the view is
unbacked or the access of width w bytes does not fit below DataSize, the
read returns zero rather than failing; likewise an unbacked or
out-of-range bit read returns false. -/
theorem struct_reads_total (p : Struct) (off n : Nat) :
    ((p.seg = none ∨ p.size.dataSize < off + 1) → p.Uint8 off = 0) ∧
    ((p.seg = none ∨ p.size.dataSize < off + 2) → p.Uint16 off = 0) ∧
    ((p.seg = none ∨ p.size.dataSize < off + 4) → p.Uint32 off = 0) ∧
    ((p.seg = none ∨ p.size.dataSize < off + 8) → p.Uint64 off = 0) ∧
    ((p.seg = none ∨ p.size.dataSize * 8 ≤ n) → p.Bit n = false) := by
  refine ⟨?_, ?_, ?_, ?_, ?_⟩
  all_goals intro h
  case _ =>
    unfold Struct.Uint8 Struct.dataAddress
    rcases h with h | h
    · rw [h]
    · cases hs : p.seg <;> simp [if_pos h]
  case _ =>
    unfold Struct.Uint16 Struct.dataAddress
    rcases h with h | h
    · rw [h]
    · cases hs : p.seg <;> simp [if_pos h]
  case _ =>
    unfold Struct.Uint32 Struct.dataAddress
    rcases h with h | h
    · rw [h]
    · cases hs : p.seg <;> simp [if_pos h]
  case _ =>
    unfold Struct.Uint64 Struct.dataAddress
    rcases h with h | h
    · rw [h]
    · cases hs : p.seg <;> simp [if_pos h]
  case _ =>
    unfold Struct.Bit
    rcases h with h | h
    · rw [h]
    · cases hs : p.seg
      · rfl
      · simp [if_neg (by omega : ¬ n < p.size.dataSize * 8)]

/-- Witness for struct_reads_total on the unbacked invalid struct. -/
theorem struct_reads_total_witness :
    Struct.empty.Uint8 0 = 0 ∧ Struct.empty.Uint16 0 = 0 ∧ Struct.empty.Uint32 0 = 0 ∧
    Struct.empty.Uint64 0 = 0 ∧ Struct.empty.Bit 0 = false :=
  ⟨(struct_reads_total Struct.empty 0 0).1 (Or.inl rfl),
   (struct_reads_total Struct.empty 0 0).2.1 (Or.inl rfl),
   (struct_reads_total Struct.empty 0 0).2.2.1 (Or.inl rfl),
   (struct_reads_total Struct.empty 0 0).2.2.2.1 (Or.inl rfl),
   (struct_reads_total Struct.empty 0 0).2.2.2.2 (Or.inl rfl)⟩

theorem readLE_writeLE_eq (s : Segment) (addr k v : Nat) (h : addr + k ≤ s.data.length)
    (hv : v < 256 ^ k) : (s.writeLE addr k v).readLE addr k = v := by
  rw [Segment.readLE_writeLE s addr k v h]
  exact Nat.mod_eq_of_lt hv

theorem Struct.dataAddress_some (p : Struct) (s : Segment) (off k : Nat) (hs : p.seg = some s)
    (hoff : off + k ≤ p.size.dataSize) : p.dataAddress off k = some (p.off + off) := by
  unfold Struct.dataAddress
  rw [hs]
  simp only [if_neg (by omega : ¬ p.size.dataSize < off + k)]

theorem Struct.dataAddress_none (p : Struct) (off k : Nat)
    (h : p.seg = none ∨ p.size.dataSize < off + k) : p.dataAddress off k = none := by
  unfold Struct.dataAddress
  rcases h with h | h
  · rw [h]
  · cases hs : p.seg
    · rfl
    · simp only [if_pos h]

/-- C4: the set-then-get round trip on a backed struct: for every width w
in 8, 16, 32, 64 bits, every offset with off + w/8 within DataSize and
every value of the width, writing then reading yields the value back. -/
theorem struct_set_get_roundtrip (p : Struct) (s : Segment) (off v : Nat)
    (hs : p.seg = some s) (hlen : p.off + p.size.dataSize ≤ s.data.length) :
    (off + 1 ≤ p.size.dataSize → v < 2 ^ 8 →
      ∃ q, p.SetUint8 off v = Outcome.ok q ∧ q.Uint8 off = v) ∧
    (off + 2 ≤ p.size.dataSize → v < 2 ^ 16 →
      ∃ q, p.SetUint16 off v = Outcome.ok q ∧ q.Uint16 off = v) ∧
    (off + 4 ≤ p.size.dataSize → v < 2 ^ 32 →
      ∃ q, p.SetUint32 off v = Outcome.ok q ∧ q.Uint32 off = v) ∧
    (off + 8 ≤ p.size.dataSize → v < 2 ^ 64 →
      ∃ q, p.SetUint64 off v = Outcome.ok q ∧ q.Uint64 off = v) := by
  refine ⟨?_, ?_, ?_, ?_⟩
  all_goals intro hoff hv
  case _ =>
    have hda := Struct.dataAddress_some p s off 1 hs hoff
    refine ⟨{ p with seg := some (s.writeLE (p.off + off) 1 v) }, by simp [Struct.SetUint8, hs, hda], ?_⟩
    have hda2 : ({ p with seg := some (s.writeLE (p.off + off) 1 v) } : Struct).dataAddress off 1
        = some (p.off + off) := Struct.dataAddress_some _ _ off 1 rfl hoff
    simp only [Struct.Uint8, hda2]
    exact readLE_writeLE_eq s (p.off + off) 1 v (by omega) (by norm_num at hv ⊢; omega)
  case _ =>
    have hda := Struct.dataAddress_some p s off 2 hs hoff
    refine ⟨{ p with seg := some (s.writeLE (p.off + off) 2 v) }, by simp [Struct.SetUint16, hs, hda], ?_⟩
    have hda2 : ({ p with seg := some (s.writeLE (p.off + off) 2 v) } : Struct).dataAddress off 2
        = some (p.off + off) := Struct.dataAddress_some _ _ off 2 rfl hoff
    simp only [Struct.Uint16, hda2]
    exact readLE_writeLE_eq s (p.off + off) 2 v (by omega) (by norm_num at hv ⊢; omega)
  case _ =>
    have hda := Struct.dataAddress_some p s off 4 hs hoff
    refine ⟨{ p with seg := some (s.writeLE (p.off + off) 4 v) }, by simp [Struct.SetUint32, hs, hda], ?_⟩
    have hda2 : ({ p with seg := some (s.writeLE (p.off + off) 4 v) } : Struct).dataAddress off 4
        = some (p.off + off) := Struct.dataAddress_some _ _ off 4 rfl hoff
    simp only [Struct.Uint32, hda2]
    exact readLE_writeLE_eq s (p.off + off) 4 v (by omega) (by norm_num at hv ⊢; omega)
  case _ =>
    have hda := Struct.dataAddress_some p s off 8 hs hoff
    refine ⟨{ p with seg := some (s.writeLE (p.off + off) 8 v) }, by simp [Struct.SetUint64, hs, hda], ?_⟩
    have hda2 : ({ p with seg := some (s.writeLE (p.off + off) 8 v) } : Struct).dataAddress off 8
        = some (p.off + off) := Struct.dataAddress_some _ _ off 8 rfl hoff
    simp only [Struct.Uint64, hda2]
    exact readLE_writeLE_eq s (p.off + off) 8 v (by omega) (by norm_num at hv ⊢; omega)

/-- Witness for struct_set_get_roundtrip: the 64-bit round trip at offset
zero of a concrete backed 8-byte struct. -/
theorem struct_set_get_roundtrip_witness :
    structEx.seg = some segEx ∧ structEx.off + structEx.size.dataSize ≤ segEx.data.length ∧
    (0 + 8 ≤ structEx.size.dataSize → 81985529216486895 < 2 ^ 64 →
      ∃ q, structEx.SetUint64 0 81985529216486895 = Outcome.ok q ∧
        q.Uint64 0 = 81985529216486895) :=
  ⟨rfl, by decide,
   (struct_set_get_roundtrip structEx segEx 0 81985529216486895 rfl (by decide)).2.2.2⟩

/-- C5: every write of struct.go (the four scalar widths, the bit write
and the pointer-slot write) aborts with the contract-violation fault
(the Go panic with errOutOfBounds) when its target is out of range for
the declared size or the view is unbacked; the fault outcome is a
constructor distinct from an ordinary returned error; and on a backed
struct with an in-range target the abort branch is unreachable. -/
theorem struct_writes_contract (p : Struct) (s : Segment) (off n i v : Nat) (b : Bool)
    (m : Ptr) :
    ((p.seg = none ∨ p.size.dataSize < off + 1) →
      p.SetUint8 off v = Outcome.fault CapnpError.errOutOfBounds) ∧
    ((p.seg = none ∨ p.size.dataSize < off + 2) →
      p.SetUint16 off v = Outcome.fault CapnpError.errOutOfBounds) ∧
    ((p.seg = none ∨ p.size.dataSize < off + 4) →
      p.SetUint32 off v = Outcome.fault CapnpError.errOutOfBounds) ∧
    ((p.seg = none ∨ p.size.dataSize < off + 8) →
      p.SetUint64 off v = Outcome.fault CapnpError.errOutOfBounds) ∧
    ((p.seg = none ∨ p.size.dataSize * 8 ≤ n) →
      p.SetBit n b = Outcome.fault CapnpError.errOutOfBounds) ∧
    ((p.seg = none ∨ p.size.pointerCount ≤ i) →
      p.SetPointer i m = Outcome.fault CapnpError.errOutOfBounds) ∧
    (p.seg = some s → off + 1 ≤ p.size.dataSize →
      ∀ e, p.SetUint8 off v ≠ Outcome.fault e) ∧
    (p.seg = some s → off + 2 ≤ p.size.dataSize →
      ∀ e, p.SetUint16 off v ≠ Outcome.fault e) ∧
    (p.seg = some s → off + 4 ≤ p.size.dataSize →
      ∀ e, p.SetUint32 off v ≠ Outcome.fault e) ∧
    (p.seg = some s → off + 8 ≤ p.size.dataSize →
      ∀ e, p.SetUint64 off v ≠ Outcome.fault e) ∧
    (p.seg = some s → n < p.size.dataSize * 8 →
      ∀ e, p.SetBit n b ≠ Outcome.fault e) ∧
    (p.seg = some s → i < p.size.pointerCount →
      ∀ e, p.SetPointer i m ≠ Outcome.fault e) ∧
    (∀ (e1 e2 : CapnpError) (q : Struct),
      (Outcome.fault e1 : Outcome Struct) ≠ Outcome.err e2 ∧
      (Outcome.fault e1 : Outcome Struct) ≠ Outcome.ok q) := by
  refine ⟨?_, ?_, ?_, ?_, ?_, ?_, ?_, ?_, ?_, ?_, ?_, ?_, ?_⟩
  case _ =>
    intro h
    have hda := Struct.dataAddress_none p off 1 h
    cases hs : p.seg <;> simp [Struct.SetUint8, hs, hda]
  case _ =>
    intro h
    have hda := Struct.dataAddress_none p off 2 h
    cases hs : p.seg <;> simp [Struct.SetUint16, hs, hda]
  case _ =>
    intro h
    have hda := Struct.dataAddress_none p off 4 h
    cases hs : p.seg <;> simp [Struct.SetUint32, hs, hda]
  case _ =>
    intro h
    have hda := Struct.dataAddress_none p off 8 h
    cases hs : p.seg <;> simp [Struct.SetUint64, hs, hda]
  case _ =>
    intro h
    rcases h with h | h
    · simp [Struct.SetBit, h]
    · cases hs : p.seg <;> simp [Struct.SetBit, hs, if_pos h]
  case _ =>
    intro h
    rcases h with h | h
    · simp [Struct.SetPointer, h]
    · cases hs : p.seg <;> simp [Struct.SetPointer, hs, if_pos h]
  case _ =>
    intro hs hoff e
    have hda := Struct.dataAddress_some p s off 1 hs hoff
    simp [Struct.SetUint8, hs, hda]
  case _ =>
    intro hs hoff e
    have hda := Struct.dataAddress_some p s off 2 hs hoff
    simp [Struct.SetUint16, hs, hda]
  case _ =>
    intro hs hoff e
    have hda := Struct.dataAddress_some p s off 4 hs hoff
    simp [Struct.SetUint32, hs, hda]
  case _ =>
    intro hs hoff e
    have hda := Struct.dataAddress_some p s off 8 hs hoff
    simp [Struct.SetUint64, hs, hda]
  case _ =>
    intro hs hn e
    simp [Struct.SetBit, hs, if_neg (by omega : ¬ p.size.dataSize * 8 ≤ n)]
  case _ =>
    intro hs hi e
    simp only [Struct.SetPointer, hs, if_neg (by omega : ¬ p.size.pointerCount ≤ i)]
    cases s.writePtr 0 (p.pointerAddress i) m <;> simp
  case _ =>
    intro e1 e2 q
    exact ⟨by simp, by simp⟩

/-- Witness for struct_writes_contract: the out-of-range 64-bit write on
the concrete backed 8-byte struct panics, and the in-range write at
offset zero cannot panic. -/
theorem struct_writes_contract_witness :
    (structEx.seg = none ∨ structEx.size.dataSize < 1 + 8) ∧
    structEx.SetUint64 1 5 = Outcome.fault CapnpError.errOutOfBounds ∧
    structEx.seg = some segEx ∧ 0 + 8 ≤ structEx.size.dataSize ∧
    (∀ e, structEx.SetUint64 0 5 ≠ Outcome.fault e) :=
  ⟨Or.inr (by decide),
   (struct_writes_contract structEx segEx 1 0 0 5 false Ptr.null).2.2.2.1 (Or.inr (by decide)),
   rfl, by decide,
   (struct_writes_contract structEx segEx 0 0 0 5 false Ptr.null).2.2.2.2.2.2.2.2.2.1 rfl
     (by decide)⟩

theorem bitMask_eq (n : Nat) : bitMask n = 2 ^ (n % 8) := by
  unfold bitMask
  rw [Nat.shiftLeft_eq, one_mul]

theorem bitMask_lt (n : Nat) : bitMask n < 2 ^ 8 := by
  rw [bitMask_eq]
  exact Nat.pow_lt_pow_right (by norm_num) (Nat.mod_lt _ (by norm_num))

/-- C9: SetBit on a backed struct with an in-range bit changes at most the
single selected bit: it returns normally, every byte of the segment other
than the containing byte is unchanged, every other bit of the containing
byte is unchanged, and reading the bit back yields the written value. -/
theorem struct_setbit_isolation (p : Struct) (s : Segment) (n : Nat) (v : Bool)
    (hs : p.seg = some s) (hn : n < p.size.dataSize * 8)
    (hlen : p.off + p.size.dataSize ≤ s.data.length)
    (hbyte : s.data.getD (p.off + n / 8) 0 < 2 ^ 8) :
    ∃ s2, p.SetBit n v = Outcome.ok { p with seg := some s2 } ∧
      (∀ a, a ≠ p.off + n / 8 → s2.data.getD a 0 = s.data.getD a 0) ∧
      (∀ j, j < 8 → j ≠ n % 8 →
        (s2.data.getD (p.off + n / 8) 0).testBit j
          = (s.data.getD (p.off + n / 8) 0).testBit j) ∧
      Struct.Bit { p with seg := some s2 } n = v := by
  have haddr : p.off + n / 8 < s.data.length := by omega
  have hb2lt : (if v then s.data.getD (p.off + n / 8) 0 ||| 2 ^ (n % 8)
      else s.data.getD (p.off + n / 8) 0 &&& (255 ^^^ 2 ^ (n % 8))) < 2 ^ 8 := by
    cases v
    · simpa using Nat.lt_of_le_of_lt Nat.and_le_left hbyte
    · simpa using Nat.or_lt_two_pow hbyte (by simpa [bitMask_eq] using bitMask_lt n)
  have hset : p.SetBit n v = Outcome.ok { p with seg := some (s.writeUint8 (p.off + n / 8) (if v then s.data.getD (p.off + n / 8) 0 ||| 2 ^ (n % 8) else s.data.getD (p.off + n / 8) 0 &&& (255 ^^^ 2 ^ (n % 8)))) } := by
    simp only [Struct.SetBit, hs, if_neg (by omega : ¬ p.size.dataSize * 8 ≤ n),
      bitOffset, bitMask_eq, Segment.readUint8]
  have hdata : (s.writeUint8 (p.off + n / 8)
      (if v then s.data.getD (p.off + n / 8) 0 ||| 2 ^ (n % 8)
       else s.data.getD (p.off + n / 8) 0 &&& (255 ^^^ 2 ^ (n % 8)))).data
      = s.data.set (p.off + n / 8)
        (if v then s.data.getD (p.off + n / 8) 0 ||| 2 ^ (n % 8)
         else s.data.getD (p.off + n / 8) 0 &&& (255 ^^^ 2 ^ (n % 8))) := by
    unfold Segment.writeUint8
    rw [Nat.mod_eq_of_lt (by simpa using hb2lt)]
  refine ⟨_, hset, ?_, ?_, ?_⟩
  · intro a ha
    rw [hdata, List.getD_eq_getElem?_getD, List.getD_eq_getElem?_getD,
      List.getElem?_set_ne (by omega)]
    rw [List.getD_eq_getElem?_getD]
  · intro j hj hjk
    have hkj : ¬ (n % 8 = j) := fun h => hjk h.symm
    rw [hdata, List.getD_eq_getElem?_getD, List.getElem?_set_self haddr, Option.getD_some]
    cases v
    · simp only [Bool.false_eq_true, if_false]
      rw [Nat.testBit_and, Nat.testBit_xor, Nat.testBit_two_pow,
        show (255 : Nat) = 2 ^ 8 - 1 by norm_num, Nat.testBit_two_pow_sub_one]
      simp [hj, hkj]
    · simp only [if_true]
      rw [Nat.testBit_or, Nat.testBit_two_pow]
      simp [hkj]
  · simp only [Struct.Bit, if_pos hn, Segment.readUint8, bitOffset, bitMask_eq, hdata]
    rw [List.getD_eq_getElem?_getD, List.getElem?_set_self haddr, Option.getD_some]
    cases v
    · simp only [Bool.false_eq_true, if_false]
      rw [Nat.and_two_pow, Nat.testBit_and, Nat.testBit_xor,
        show (255 : Nat) = 2 ^ 8 - 1 by norm_num, Nat.testBit_two_pow_sub_one,
        Nat.testBit_two_pow_self]
      simp [Nat.mod_lt n (show 0 < 8 by norm_num)]
    · simp only [if_true]
      rw [Nat.and_two_pow, Nat.testBit_or, Nat.testBit_two_pow_self]
      simp [(Nat.two_pow_pos (n % 8)).ne.symm]

/-- Witness for struct_setbit_isolation: setting bit 3 of the concrete
backed struct. -/
theorem struct_setbit_isolation_witness :
    structEx.seg = some segEx ∧ 3 < structEx.size.dataSize * 8 ∧
    structEx.off + structEx.size.dataSize ≤ segEx.data.length ∧
    segEx.data.getD (structEx.off + 3 / 8) 0 < 2 ^ 8 ∧
    ∃ s2, structEx.SetBit 3 true = Outcome.ok { structEx with seg := some s2 } ∧
      (∀ a, a ≠ structEx.off + 3 / 8 → s2.data.getD a 0 = segEx.data.getD a 0) ∧
      (∀ j, j < 8 → j ≠ 3 % 8 →
        (s2.data.getD (structEx.off + 3 / 8) 0).testBit j
          = (segEx.data.getD (structEx.off + 3 / 8) 0).testBit j) ∧
      Struct.Bit { structEx with seg := some s2 } 3 = true :=
  ⟨rfl, by decide, by decide, by decide,
   struct_setbit_isolation structEx segEx 3 true rfl (by decide) (by decide) (by decide)⟩

/-- C2 (amended): the pointer-slot read returns the null pointer with no
error whenever the index is at or beyond PointerCount or the view is
unbacked; otherwise it returns exactly the decode result of the segment,
propagating any decoding error of the collaborator (so the read is not
error-free in general). -/
theorem struct_pointer_read_amended (p : Struct) (i : Nat) :
    ((p.seg = none ∨ p.size.pointerCount ≤ i) → p.Pointer i = Except.ok Ptr.null) ∧
    (∀ s, p.seg = some s → i < p.size.pointerCount →
      p.Pointer i = s.readPtr (p.pointerAddress i)) := by
  constructor
  · intro h
    rcases h with h | h
    · simp [Struct.Pointer, h]
    · cases hs : p.seg <;> simp [Struct.Pointer, hs, if_pos h]
  · intro s hs hi
    simp [Struct.Pointer, hs, if_neg (by omega : ¬ p.size.pointerCount ≤ i)]

/-- Counterexample to C2 as stated: Struct.Pointer forwards the decode
error of the segment, so reading slot 0 of a backed struct whose pointer
word is undecodable produces an error, contradicting the claim that the
pointer-slot read never fails. -/
theorem struct_pointer_read_counterexample :
    corruptStruct.Pointer 0 = Except.error CapnpError.errBadPointer := rfl

/-- Witness for struct_pointer_read_amended at the unbacked struct and at
the concrete corrupt one-slot struct. -/
theorem struct_pointer_read_amended_witness :
    (Struct.empty.seg = none ∨ Struct.empty.size.pointerCount ≤ 0) ∧
    Struct.empty.Pointer 0 = Except.ok Ptr.null ∧
    corruptStruct.seg = some corruptSeg ∧ 0 < corruptStruct.size.pointerCount ∧
    corruptStruct.Pointer 0 = corruptSeg.readPtr (corruptStruct.pointerAddress 0) :=
  ⟨Or.inl rfl, (struct_pointer_read_amended Struct.empty 0).1 (Or.inl rfl),
   rfl, Nat.zero_lt_one,
   (struct_pointer_read_amended corruptStruct 0).2 corruptSeg rfl Nat.zero_lt_one⟩

/-- C6: ToStructDefault on an invalid or non-struct pointer: with no
default template it yields the zero-valued invalid Struct and no error;
with a template it returns the struct decoded from the template, and a
decoding failure of the template is returned as a hard error. -/
theorem tostruct_default_fallback (p : Ptr) (h : p.isStruct = false) :
    (ToStructDefault p none = Except.ok Struct.empty) ∧
    (∀ bs q, unmarshalDefault bs = Except.ok q →
      ToStructDefault p (some bs) = Except.ok (ToStruct q)) ∧
    (∀ bs e, unmarshalDefault bs = Except.error e →
      ToStructDefault p (some bs) = Except.error e) := by
  refine ⟨?_, ?_, ?_⟩
  · cases p with
    | null => rfl
    | strukt d ps => simp [Ptr.isStruct] at h
    | cap n => rfl
  · intro bs q hq
    cases p with
    | null => simp [ToStructDefault, IsValid, hq]
    | strukt d ps => simp [Ptr.isStruct] at h
    | cap n => simp [ToStructDefault, IsValid, hq]
  · intro bs e he
    cases p with
    | null => simp [ToStructDefault, IsValid, he]
    | strukt d ps => simp [Ptr.isStruct] at h
    | cap n => simp [ToStructDefault, IsValid, he]

/-- Witness for tostruct_default_fallback on the null pointer, with a
concrete well-formed template and a concrete malformed template. -/
theorem tostruct_default_fallback_witness :
    Ptr.isStruct Ptr.null = false ∧
    ToStructDefault Ptr.null none = Except.ok Struct.empty ∧
    unmarshalDefault [1, 0] = Except.ok (Ptr.strukt [] []) ∧
    ToStructDefault Ptr.null (some [1, 0]) = Except.ok (ToStruct (Ptr.strukt [] [])) ∧
    unmarshalDefault [] = Except.error CapnpError.errMalformedDefault ∧
    ToStructDefault Ptr.null (some []) = Except.error CapnpError.errMalformedDefault :=
  ⟨rfl, (tostruct_default_fallback Ptr.null rfl).1,
   rfl, (tostruct_default_fallback Ptr.null rfl).2.1 [1, 0] (Ptr.strukt [] []) rfl,
   rfl, (tostruct_default_fallback Ptr.null rfl).2.2 [] CapnpError.errMalformedDefault rfl⟩

/-- C8: NewStruct rejects an out-of-bounds ObjectSize with the
invalid-size error without consulting the allocator; for a valid size it
requests exactly the word-rounded DataSize plus PointerCount words from
the allocator, propagating an allocation error unchanged, and on a
successful allocation returns a view whose DataSize is the rounded one
and whose allocation grew the segment by exactly that request. -/
theorem newstruct_alloc (s : Segment) (sz : ObjectSize) :
    (sz.isValid = false → NewStruct s sz = Except.error CapnpError.errObjectSize) ∧
    (sz.isValid = true →
      ∀ e, alloc s (padToWord sz.dataSize + wordSize * sz.pointerCount) = Except.error e →
        NewStruct s sz = Except.error e) ∧
    (sz.isValid = true →
      ∀ seg2 addr, alloc s (padToWord sz.dataSize + wordSize * sz.pointerCount)
          = Except.ok (seg2, addr) →
        NewStruct s sz = Except.ok ({ seg := some seg2, off := addr, size := { dataSize := padToWord sz.dataSize, pointerCount := sz.pointerCount }, flags := 0 }, seg2)) ∧
    (sz.isValid = true → ∀ st s2, NewStruct s sz = Except.ok (st, s2) →
      st.size.dataSize = padToWord sz.dataSize ∧
      st.size.pointerCount = sz.pointerCount ∧
      st.seg = some s2 ∧ st.off = s.data.length ∧
      s2.data.length = s.data.length + (padToWord sz.dataSize + wordSize * sz.pointerCount)) := by
  have hreq : ObjectSize.totalSize { dataSize := padToWord sz.dataSize, pointerCount := sz.pointerCount } = padToWord sz.dataSize + wordSize * sz.pointerCount := rfl
  refine ⟨?_, ?_, ?_, ?_⟩
  · intro h
    simp [NewStruct, h]
  · intro h e halloc
    simp only [NewStruct]
    rw [if_neg (by simp [h]), hreq, halloc]
  · intro h seg2 addr halloc
    simp only [NewStruct]
    rw [if_neg (by simp [h]), hreq, halloc]
  · intro h st s2 heq
    simp only [NewStruct] at heq
    rw [if_neg (by simp [h]), hreq] at heq
    cases halloc : alloc s (padToWord sz.dataSize + wordSize * sz.pointerCount) with
    | error e => simp only [halloc] at heq; cases heq
    | ok res =>
      simp only [halloc] at heq
      cases heq
      unfold alloc at halloc
      by_cases hcap : maxSegmentBytes < s.data.length
          + (padToWord sz.dataSize + wordSize * sz.pointerCount)
      · rw [if_pos hcap] at halloc
        cases halloc
      · rw [if_neg hcap] at halloc
        cases halloc
        refine ⟨rfl, rfl, rfl, rfl, ?_⟩
        simp [List.length_append, List.length_replicate]

/-- Witness for newstruct_alloc: an out-of-bounds size is rejected; the
concrete valid size of 3 data bytes and 1 pointer makes a 16-byte
allocation request that succeeds at the end of the 8-byte segment,
rounding the data size to 8 bytes. -/
theorem newstruct_alloc_witness :
    (ObjectSize.isValid { dataSize := 524281, pointerCount := 0 } = false ∧
      NewStruct segEx { dataSize := 524281, pointerCount := 0 }
        = Except.error CapnpError.errObjectSize) ∧
    (ObjectSize.isValid { dataSize := 3, pointerCount := 1 } = true ∧
      alloc segEx (padToWord 3 + wordSize * 1) = Except.ok (seg2Ex, 8) ∧
      NewStruct segEx { dataSize := 3, pointerCount := 1 } = Except.ok ({ seg := some seg2Ex, off := 8, size := { dataSize := padToWord 3, pointerCount := 1 }, flags := 0 }, seg2Ex)) ∧
    (stEx.size.dataSize = padToWord 3 ∧ stEx.size.pointerCount = 1 ∧
      stEx.seg = some seg2Ex ∧ stEx.off = segEx.data.length ∧
      seg2Ex.data.length = segEx.data.length + (padToWord 3 + wordSize * 1)) :=
  ⟨⟨by decide, (newstruct_alloc segEx { dataSize := 524281, pointerCount := 0 }).1 (by decide)⟩,
   ⟨by decide, rfl,
    (newstruct_alloc segEx { dataSize := 3, pointerCount := 1 }).2.2.1 (by decide) seg2Ex 8 rfl⟩,
   (newstruct_alloc segEx { dataSize := 3, pointerCount := 1 }).2.2.2 (by decide) stEx seg2Ex rfl⟩

/-! Helper lemmas about the deep pointer copy. -/

mutual

theorem copyPtr_ok : ∀ (cc : Nat) (m m2 : Ptr), copyPtr cc m = Except.ok m2 → m2 = m
  | cc, Ptr.null, m2, h => by
    simp only [copyPtr, Except.ok.injEq] at h
    exact h.symm
  | cc, Ptr.cap n, m2, h => by
    simp only [copyPtr, Except.ok.injEq] at h
    exact h.symm
  | cc, Ptr.strukt d ps, m2, h => by
    simp only [copyPtr] at h
    by_cases hd : maxDepth ≤ cc
    · simp [hd] at h
    · rw [if_neg hd] at h
      cases hps : copyPtrList (cc + 1) ps with
      | error e => rw [hps] at h; cases h
      | ok ps2 =>
        rw [hps] at h
        cases h
        rw [copyPtrList_ok (cc + 1) ps ps2 hps]

theorem copyPtrList_ok : ∀ (cc : Nat) (ps ps2 : List Ptr),
    copyPtrList cc ps = Except.ok ps2 → ps2 = ps
  | cc, [], ps2, h => by
    simp only [copyPtrList, Except.ok.injEq] at h
    exact h.symm
  | cc, p :: rest, ps2, h => by
    simp only [copyPtrList] at h
    cases hp : copyPtr cc p with
    | error e => rw [hp] at h; cases h
    | ok p2 =>
      rw [hp] at h
      cases hr : copyPtrList cc rest with
      | error e => rw [hr] at h; cases h
      | ok rest2 =>
        rw [hr] at h
        cases h
        rw [copyPtr_ok cc p p2 hp, copyPtrList_ok cc rest rest2 hr]

end

theorem copyPtr_chain (n : Nat) : ∀ cc : Nat,
    copyPtr cc (chainPtr n)
      = if maxDepth ≤ cc + n then Except.error CapnpError.errCopyDepth
        else Except.ok (chainPtr n) := by
  induction n with
  | zero =>
    intro cc
    simp [chainPtr, copyPtr, copyPtrList]
  | succ k ih =>
    intro cc
    simp only [chainPtr, copyPtr, copyPtrList]
    by_cases hd : maxDepth ≤ cc
    · rw [if_pos hd, if_pos (by omega : maxDepth ≤ cc + (k + 1))]
    · rw [if_neg hd, ih (cc + 1)]
      by_cases hd2 : maxDepth ≤ cc + 1 + k
      · rw [if_pos hd2, if_pos (by omega : maxDepth ≤ cc + (k + 1))]
      · rw [if_neg hd2, if_neg (by omega : ¬ maxDepth ≤ cc + (k + 1))]

/-! Helper lemmas about bulk byte writes, slices and pointer cells. -/

theorem setBytes_length : ∀ (bs data : List Nat) (addr : Nat),
    (setBytes data addr bs).length = data.length
  | [], data, addr => rfl
  | b :: bs, data, addr => by
    simp only [setBytes]
    rw [setBytes_length bs, List.length_set]

theorem setBytes_getElem_out : ∀ (bs data : List Nat) (addr i : Nat),
    (i < addr ∨ addr + bs.length ≤ i) → (setBytes data addr bs)[i]? = data[i]?
  | [], data, addr, i, h => rfl
  | b :: bs, data, addr, i, h => by
    simp only [setBytes]
    have hlen : (b :: bs).length = bs.length + 1 := by simp
    rw [setBytes_getElem_out bs _ (addr + 1) i (by rw [hlen] at h; omega),
      List.getElem?_set_ne (by rw [hlen] at h; omega)]

theorem setBytes_getElem_in : ∀ (bs data : List Nat) (addr i : Nat),
    addr ≤ i → i < addr + bs.length → i < data.length →
    (setBytes data addr bs)[i]? = bs[i - addr]?
  | [], data, addr, i, h1, h2, h3 => by simp at h2; omega
  | b :: bs, data, addr, i, h1, h2, h3 => by
    simp only [setBytes]
    rcases Nat.eq_or_lt_of_le h1 with he | hlt
    · rw [setBytes_getElem_out bs _ (addr + 1) i (Or.inl (by omega)), ← he,
        List.getElem?_set_self (by omega), Nat.sub_self]
      simp
    · have hsh : i - addr = (i - (addr + 1)) + 1 := by omega
      rw [setBytes_getElem_in bs _ (addr + 1) i (by omega)
          (by simp at h2 ⊢; omega) (by rw [List.length_set]; omega),
        hsh, List.getElem?_cons_succ]

theorem slice_length (s : Segment) (addr sz : Nat) (h : addr + sz ≤ s.data.length) :
    (s.slice addr sz).length = sz := by
  simp only [Segment.slice, List.length_take, List.length_drop]
  omega

theorem slice_getElem (s : Segment) (addr sz k : Nat) (hk : k < sz) :
    (s.slice addr sz)[k]? = s.data[addr + k]? := by
  simp [Segment.slice, List.getElem?_take, hk, List.getElem?_drop]

theorem pcell_setPcell (s : Segment) (addr a : Nat) (c : PtrCell) :
    (s.setPcell addr c).pcell a = if a = addr then c else s.pcell a := by
  simp only [Segment.setPcell, Segment.pcell, List.lookup]
  by_cases h : a = addr
  · simp [h]
  · rw [if_neg h]
    simp [beq_false_of_ne h]

theorem writePtr_ok (cc : Nat) (s : Segment) (addr : Nat) (m : Ptr) (s2 : Segment)
    (h : s.writePtr cc addr m = Except.ok s2) :
    s2.data = s.data ∧ s2.pcell addr = PtrCell.val m ∧
    ∀ a, a ≠ addr → s2.pcell a = s.pcell a := by
  unfold Segment.writePtr at h
  cases hc : copyPtr cc m with
  | error e => rw [hc] at h; cases h
  | ok m2 =>
    rw [hc] at h
    cases h
    have hm := copyPtr_ok cc m m2 hc
    subst hm
    refine ⟨rfl, ?_, ?_⟩
    · rw [pcell_setPcell]
      simp
    · intro a ha
      rw [pcell_setPcell, if_neg ha]

theorem writeRawPointer_pcell (s : Segment) (addr w a : Nat) :
    (s.writeRawPointer addr w).pcell a = if a = addr then PtrCell.raw w else s.pcell a :=
  pcell_setPcell s addr a (PtrCell.raw w)

theorem copyPtrSection_ok (cc : Nat) (sseg : Segment) (ss ds : Nat) :
    ∀ (n j : Nat) (dseg out : Segment),
    copyPtrSection cc sseg ss ds n j dseg = Except.ok out →
    out.data = dseg.data ∧
    (∀ a, (∀ t, t < n → a ≠ ds + wordSize * (j + t)) → out.pcell a = dseg.pcell a) ∧
    (∀ t, t < n → ∃ m, sseg.readPtr (ss + wordSize * (j + t)) = Except.ok m ∧
      out.pcell (ds + wordSize * (j + t)) = PtrCell.val m) := by
  intro n
  induction n with
  | zero =>
    intro j dseg out h
    cases h
    exact ⟨rfl, fun a _ => rfl, fun t ht => absurd ht (by omega)⟩
  | succ k ih =>
    intro j dseg out h
    simp only [copyPtrSection] at h
    cases hr : sseg.readPtr (ss + wordSize * j) with
    | error e => simp only [hr] at h; cases h
    | ok m =>
      simp only [hr] at h
      cases hw : dseg.writePtr (cc + 1) (ds + wordSize * j) m with
      | error e => simp only [hw] at h; cases h
      | ok dseg2 =>
        simp only [hw] at h
        obtain ⟨hd2, hc2, hs2⟩ := ih (j + 1) dseg2 out h
        obtain ⟨hwd, hwp, hwf⟩ := writePtr_ok (cc + 1) dseg (ds + wordSize * j) m dseg2 hw
        refine ⟨hd2.trans hwd, ?_, ?_⟩
        · intro a ha
          rw [hc2 a ?side2, hwf a ?side1]
          case side1 =>
            have := ha 0 (by omega)
            simpa [wordSize] using this
          case side2 =>
            intro t ht
            have := ha (t + 1) (by omega)
            simp only [wordSize] at this ⊢
            omega
        · intro t ht
          cases t with
          | zero =>
            refine ⟨m, by simpa [wordSize] using hr, ?_⟩
            rw [hc2 _ ?noclobber]
            · simpa [wordSize] using hwp
            case noclobber =>
              intro t2 ht2
              simp only [wordSize]
              omega
          | succ t2 =>
            obtain ⟨m2, hm2, hp2⟩ := hs2 t2 (by omega)
            refine ⟨m2, ?_, ?_⟩
            · have he : j + 1 + t2 = j + (t2 + 1) := by omega
              rw [he] at hm2
              exact hm2
            · have he : j + 1 + t2 = j + (t2 + 1) := by omega
              rw [he] at hp2
              exact hp2

theorem copyPtrSection_congr (cc : Nat) (sseg sseg2 : Segment) (ss ds : Nat) :
    ∀ (n j : Nat) (dseg : Segment),
    (∀ t, t < n → sseg2.pcell (ss + wordSize * (j + t)) = sseg.pcell (ss + wordSize * (j + t))) →
    copyPtrSection cc sseg2 ss ds n j dseg = copyPtrSection cc sseg ss ds n j dseg := by
  intro n
  induction n with
  | zero => intro j dseg h; rfl
  | succ k ih =>
    intro j dseg h
    simp only [copyPtrSection]
    have h0 : sseg2.readPtr (ss + wordSize * j) = sseg.readPtr (ss + wordSize * j) := by
      unfold Segment.readPtr
      have := h 0 (by omega)
      simp only [Nat.add_zero] at this
      rw [this]
    rw [h0]
    cases he : sseg.readPtr (ss + wordSize * j) with
    | error e => rfl
    | ok m =>
      dsimp only
      cases hw : dseg.writePtr (cc + 1) (ds + wordSize * j) m with
      | error e => rfl
      | ok dseg2 =>
        dsimp only
        refine ih (j + 1) dseg2 ?_
        intro t ht
        have := h (t + 1) (by omega)
        have he2 : j + 1 + t = j + (t + 1) := by omega
        rw [he2]
        exact this

theorem zeroPtrSlots_spec (ds : Nat) :
    ∀ (n j : Nat) (dseg : Segment),
    (zeroPtrSlots ds n j dseg).data = dseg.data ∧
    (∀ a, (∀ t, t < n → a ≠ ds + wordSize * (j + t)) →
      (zeroPtrSlots ds n j dseg).pcell a = dseg.pcell a) ∧
    (∀ t, t < n → (zeroPtrSlots ds n j dseg).pcell (ds + wordSize * (j + t)) = PtrCell.raw 0) := by
  intro n
  induction n with
  | zero =>
    intro j dseg
    exact ⟨rfl, fun a _ => rfl, fun t ht => absurd ht (by omega)⟩
  | succ k ih =>
    intro j dseg
    simp only [zeroPtrSlots]
    obtain ⟨hd, hf, hz⟩ := ih (j + 1) (dseg.writeRawPointer (ds + wordSize * j) 0)
    refine ⟨hd, ?_, ?_⟩
    · intro a ha
      rw [hf a ?side2, writeRawPointer_pcell, if_neg ?side1]
      case side1 =>
        have := ha 0 (by omega)
        simpa [wordSize] using this
      case side2 =>
        intro t ht
        have := ha (t + 1) (by omega)
        simp only [wordSize] at this ⊢
        omega
    · intro t ht
      cases t with
      | zero =>
        rw [hf _ ?noclobber, writeRawPointer_pcell]
        · simp [wordSize]
        case noclobber =>
          intro t2 ht2
          simp only [wordSize]
          omega
      | succ t2 =>
        have he : j + 1 + t2 = j + (t2 + 1) := by omega
        have := hz t2 (by omega)
        rw [he] at this
        exact this

theorem dataCopyBytes_spec (sseg dseg : Segment) (src dst : Struct)
    (hdr : dst.off + dst.size.dataSize ≤ dseg.data.length)
    (hsr : src.off + src.size.dataSize ≤ sseg.data.length) :
    (dataCopyBytes sseg dseg src dst).length = dst.size.dataSize ∧
    (∀ k, k < min src.size.dataSize dst.size.dataSize →
      (dataCopyBytes sseg dseg src dst)[k]? = sseg.data[src.off + k]?) ∧
    (∀ k, min src.size.dataSize dst.size.dataSize ≤ k → k < dst.size.dataSize →
      (dataCopyBytes sseg dseg src dst)[k]? = some 0) := by
  have hsl : (sseg.slice src.off src.size.dataSize).length = src.size.dataSize :=
    slice_length _ _ _ hsr
  have hdl : (dseg.slice dst.off dst.size.dataSize).length = dst.size.dataSize :=
    slice_length _ _ _ hdr
  simp only [dataCopyBytes, hsl, hdl]
  refine ⟨?_, ?_, ?_⟩
  · rw [List.length_append, List.length_take, List.length_replicate, hsl]
    omega
  · intro k hk
    rw [List.getElem?_append, if_pos (by rw [List.length_take, hsl]; omega),
      List.getElem?_take, if_pos (by omega), slice_getElem _ _ _ _ (by omega)]
  · intro k h1 h2
    rw [List.getElem?_append, if_neg (by rw [List.length_take, hsl]; omega),
      List.getElem?_replicate, if_pos (by rw [List.length_take, hsl]; omega)]

/-- C1: the version-tolerant copy.  On a successful copy between backed,
in-range views, the destination data section holds the first
min(srcDataSize, dstDataSize) source bytes followed by zeroes up to
dstDataSize; every destination pointer slot below min(srcPointerCount,
dstPointerCount) holds the deep copy (here: the value) of the decoded
source slot; every destination slot from srcPointerCount up to
dstPointerCount holds the zero raw word.  The result depends only on
source data and on source slots below dstPointerCount, so source slots
beyond dstPointerCount are never touched.  With an unbacked destination
the copy is a no-op returning no error. -/
theorem copyStruct_versioned_copy (cc : Nat) (dst src : Struct) (dseg sseg : Segment)
    (hd : dst.seg = some dseg) (hs : src.seg = some sseg)
    (hdr : dst.off + dst.size.dataSize ≤ dseg.data.length)
    (hsr : src.off + src.size.dataSize ≤ sseg.data.length) :
    (∀ out, copyStruct cc dst src = Outcome.ok out →
      ∃ dseg4, out = { dst with seg := some dseg4 } ∧
        (∀ k, k < min src.size.dataSize dst.size.dataSize →
          dseg4.data.getD (dst.off + k) 0 = sseg.data.getD (src.off + k) 0) ∧
        (∀ k, min src.size.dataSize dst.size.dataSize ≤ k → k < dst.size.dataSize →
          dseg4.data.getD (dst.off + k) 0 = 0) ∧
        (∀ j, j < min src.size.pointerCount dst.size.pointerCount →
          ∃ m, sseg.readPtr (src.off + src.size.dataSize + wordSize * j) = Except.ok m ∧
            dseg4.pcell (dst.off + dst.size.dataSize + wordSize * j) = PtrCell.val m) ∧
        (∀ j, src.size.pointerCount ≤ j → j < dst.size.pointerCount →
          dseg4.pcell (dst.off + dst.size.dataSize + wordSize * j) = PtrCell.raw 0)) ∧
    (∀ sseg2 : Segment, sseg2.data = sseg.data →
      (∀ a : Nat, (∀ j, dst.size.pointerCount ≤ j →
        a ≠ src.off + src.size.dataSize + wordSize * j) → sseg2.pcell a = sseg.pcell a) →
      copyStruct cc dst { src with seg := some sseg2 } = copyStruct cc dst src) ∧
    (∀ d2 : Struct, d2.seg = none → copyStruct cc d2 src = Outcome.ok d2) := by
  refine ⟨?_, ?_, ?_⟩
  · intro out hout
    simp only [copyStruct, hd, hs] at hout
    cases hcps : copyPtrSection cc sseg (src.off + src.size.dataSize)
        (dst.off + dst.size.dataSize) (min src.size.pointerCount dst.size.pointerCount) 0
        (dseg.writeBytes dst.off (dataCopyBytes sseg dseg src dst)) with
    | error e => simp only [hcps] at hout; cases hout
    | ok dseg3 =>
      simp only [hcps] at hout
      cases hout
      obtain ⟨hzd, hzf, hzz⟩ := zeroPtrSlots_spec (dst.off + dst.size.dataSize)
        (dst.size.pointerCount - src.size.pointerCount) src.size.pointerCount dseg3
      obtain ⟨hcd, hcf, hcs⟩ := copyPtrSection_ok cc sseg (src.off + src.size.dataSize)
        (dst.off + dst.size.dataSize) (min src.size.pointerCount dst.size.pointerCount) 0
        (dseg.writeBytes dst.off (dataCopyBytes sseg dseg src dst)) dseg3 hcps
      obtain ⟨hlen, hin, hzero⟩ := dataCopyBytes_spec sseg dseg src dst hdr hsr
      have hdata : (zeroPtrSlots (dst.off + dst.size.dataSize)
          (dst.size.pointerCount - src.size.pointerCount) src.size.pointerCount dseg3).data
          = setBytes dseg.data dst.off (dataCopyBytes sseg dseg src dst) := by
        rw [hzd, hcd]
        rfl
      refine ⟨_, rfl, ?_, ?_, ?_, ?_⟩
      · intro k hk
        have hik : dst.off + k - dst.off = k := by omega
        rw [hdata, List.getD_eq_getElem?_getD,
          setBytes_getElem_in _ _ dst.off (dst.off + k) (by omega)
            (by rw [hlen]; omega) (by omega),
          hik, hin k hk, ← List.getD_eq_getElem?_getD]
      · intro k h1 h2
        have hik : dst.off + k - dst.off = k := by omega
        rw [hdata, List.getD_eq_getElem?_getD,
          setBytes_getElem_in _ _ dst.off (dst.off + k) (by omega)
            (by rw [hlen]; omega) (by omega),
          hik, hzero k h1 h2]
        rfl
      · intro j hj
        obtain ⟨m, hm, hp⟩ := hcs j (by omega)
        refine ⟨m, by simpa using hm, ?_⟩
        rw [hzf _ ?nz]
        · simpa using hp
        case nz =>
          intro t ht
          simp only [wordSize]
          omega
      · intro j h1 h2
        have he : src.size.pointerCount + (j - src.size.pointerCount) = j := by omega
        have := hzz (j - src.size.pointerCount) (by omega)
        rw [he] at this
        exact this
  · intro sseg2 hdata2 hcells
    simp only [copyStruct, hd, hs]
    have hbytes : dataCopyBytes sseg2 dseg { src with seg := some sseg2 } dst
        = dataCopyBytes sseg dseg src dst := by
      simp [dataCopyBytes, Segment.slice, hdata2]
    rw [hbytes]
    rw [copyPtrSection_congr cc sseg sseg2 (src.off + src.size.dataSize)
      (dst.off + dst.size.dataSize) (min src.size.pointerCount dst.size.pointerCount) 0
      (dseg.writeBytes dst.off (dataCopyBytes sseg dseg src dst)) ?agree]
    case agree =>
      intro t ht
      refine hcells _ ?_
      intro j hj
      simp only [wordSize]
      omega
  · intro d2 h2
    simp [copyStruct, h2]

/-- Witness for copyStruct_versioned_copy: copying a concrete 8-byte,
1-slot source into a concrete 16-byte, 2-slot destination. -/
theorem copyStruct_versioned_copy_witness :
    dstC1.seg = some dsegC1 ∧ srcC1.seg = some ssegC1 ∧
    dstC1.off + dstC1.size.dataSize ≤ dsegC1.data.length ∧
    srcC1.off + srcC1.size.dataSize ≤ ssegC1.data.length ∧
    ((∀ out, copyStruct 0 dstC1 srcC1 = Outcome.ok out →
      ∃ dseg4, out = { dstC1 with seg := some dseg4 } ∧
        (∀ k, k < min srcC1.size.dataSize dstC1.size.dataSize →
          dseg4.data.getD (dstC1.off + k) 0 = ssegC1.data.getD (srcC1.off + k) 0) ∧
        (∀ k, min srcC1.size.dataSize dstC1.size.dataSize ≤ k → k < dstC1.size.dataSize →
          dseg4.data.getD (dstC1.off + k) 0 = 0) ∧
        (∀ j, j < min srcC1.size.pointerCount dstC1.size.pointerCount →
          ∃ m, ssegC1.readPtr (srcC1.off + srcC1.size.dataSize + wordSize * j) = Except.ok m ∧
            dseg4.pcell (dstC1.off + dstC1.size.dataSize + wordSize * j) = PtrCell.val m) ∧
        (∀ j, srcC1.size.pointerCount ≤ j → j < dstC1.size.pointerCount →
          dseg4.pcell (dstC1.off + dstC1.size.dataSize + wordSize * j) = PtrCell.raw 0)) ∧
    (∀ sseg2 : Segment, sseg2.data = ssegC1.data →
      (∀ a : Nat, (∀ j, dstC1.size.pointerCount ≤ j →
        a ≠ srcC1.off + srcC1.size.dataSize + wordSize * j) → sseg2.pcell a = ssegC1.pcell a) →
      copyStruct 0 dstC1 { srcC1 with seg := some sseg2 } = copyStruct 0 dstC1 srcC1) ∧
    (∀ d2 : Struct, d2.seg = none → copyStruct 0 d2 srcC1 = Outcome.ok d2)) :=
  ⟨rfl, rfl, by decide, by decide,
   copyStruct_versioned_copy 0 dstC1 srcC1 dsegC1 ssegC1 rfl rfl (by decide) (by decide)⟩

/-- C7: copying a source whose first pointer slot holds a chain of nested
structs whose depth reaches the configured limit fails with the
nesting-depth error (the copy terminates by construction in this model);
moreover the depth counter is incremented by exactly one per nesting
level: the deep copy of a chain of k extra levels started at depth cc
fails exactly when maxDepth ≤ cc + k. -/
theorem copyStruct_recursion_bound (dst src : Struct) (dseg sseg : Segment) (n : Nat)
    (hd : dst.seg = some dseg) (hs : src.seg = some sseg)
    (hsp : 1 ≤ src.size.pointerCount) (hdp : 1 ≤ dst.size.pointerCount)
    (hc : sseg.pcell (src.off + src.size.dataSize) = PtrCell.val (chainPtr n))
    (hdeep : maxDepth ≤ n + 1) :
    copyStruct 0 dst src = Outcome.err CapnpError.errCopyDepth ∧
    (∀ cc k, copyPtr cc (chainPtr k) = Except.error CapnpError.errCopyDepth
      ↔ maxDepth ≤ cc + k) := by
  constructor
  · simp only [copyStruct, hd, hs]
    obtain ⟨t, ht⟩ : ∃ t, min src.size.pointerCount dst.size.pointerCount = t + 1 :=
      ⟨min src.size.pointerCount dst.size.pointerCount - 1, by omega⟩
    rw [ht]
    simp only [copyPtrSection]
    have hrp : sseg.readPtr (src.off + src.size.dataSize + wordSize * 0)
        = Except.ok (chainPtr n) := by
      unfold Segment.readPtr
      simp [hc]
    rw [hrp]
    dsimp only
    have hwp : (dseg.writeBytes dst.off (dataCopyBytes sseg dseg src dst)).writePtr (0 + 1)
        (dst.off + dst.size.dataSize + wordSize * 0) (chainPtr n)
        = Except.error CapnpError.errCopyDepth := by
      unfold Segment.writePtr
      rw [copyPtr_chain n (0 + 1), if_pos (by omega)]
    rw [hwp]
  · intro cc k
    rw [copyPtr_chain k cc]
    by_cases h : maxDepth ≤ cc + k
    · simp [h]
    · simp [h]

/-- Witness for copyStruct_recursion_bound: a concrete chain of 32 nested
structs in slot 0 makes the concrete copy fail with the depth error. -/
theorem copyStruct_recursion_bound_witness :
    dstC7.seg = some dsegC7 ∧ srcC7.seg = some ssegC7 ∧
    1 ≤ srcC7.size.pointerCount ∧ 1 ≤ dstC7.size.pointerCount ∧
    ssegC7.pcell (srcC7.off + srcC7.size.dataSize) = PtrCell.val (chainPtr 31) ∧
    maxDepth ≤ 31 + 1 ∧
    (copyStruct 0 dstC7 srcC7 = Outcome.err CapnpError.errCopyDepth ∧
     (∀ cc k, copyPtr cc (chainPtr k) = Except.error CapnpError.errCopyDepth
       ↔ maxDepth ≤ cc + k)) :=
  ⟨rfl, rfl, by decide, by decide, rfl, by decide,
   copyStruct_recursion_bound dstC7 srcC7 dsegC7 ssegC7 31 rfl rfl (by decide) (by decide)
     rfl (by decide)⟩

/-- C10: copyStruct checks only the destination for a missing backing
segment; with a backed destination and the unbacked invalid source it
dereferences the nil source segment (the fault outcome modelling the Go
nil-pointer panic in src.seg.slice) instead of treating the absent source
as all-zero, so the operation is not a defined, total copy there. -/
theorem copyStruct_nil_source_fault (cc : Nat) (dst src : Struct) (dseg : Segment)
    (hd : dst.seg = some dseg) (hs : src.seg = none) :
    copyStruct cc dst src = Outcome.fault CapnpError.errNilSegment ∧
    (∀ out, copyStruct cc dst src ≠ Outcome.ok out) ∧
    (∀ e, copyStruct cc dst src ≠ Outcome.err e) := by
  have h1 : copyStruct cc dst src = Outcome.fault CapnpError.errNilSegment := by
    simp [copyStruct, hd, hs]
  refine ⟨h1, ?_, ?_⟩
  · intro out hout
    rw [h1] at hout
    cases hout
  · intro e he
    rw [h1] at he
    cases he

/-- Witness for copyStruct_nil_source_fault: the concrete backed 8-byte
destination with the zero-valued invalid source struct. -/
theorem copyStruct_nil_source_fault_witness :
    structEx.seg = some segEx ∧ Struct.empty.seg = none ∧
    (copyStruct 0 structEx Struct.empty = Outcome.fault CapnpError.errNilSegment ∧
     (∀ out, copyStruct 0 structEx Struct.empty ≠ Outcome.ok out) ∧
     (∀ e, copyStruct 0 structEx Struct.empty ≠ Outcome.err e)) :=
  ⟨rfl, rfl, copyStruct_nil_source_fault 0 structEx Struct.empty segEx rfl rfl⟩

end Capnp
